import Mathlib

/-!
Shallow embedding of the Cedar PDP demo server (demo/cedar-pdp-server.py):
the decision parser, policy-id extractor, entity-reference parser, residual
extractor state machine, and the two handler code paths. Strings are
modelled as lists of characters; the Python string primitives used by the
server (split, strip, startswith, endswith, substring membership,
re.findall, dict.fromkeys) are embedded as executable functions.
-/

namespace CedarPDP

/-- ASCII whitespace recognised by Python str.strip with no argument. -/
def isPySpace (c : Char) : Bool :=
  c == ' ' || c == '\t' || c == '\n' || c == '\r' || c == '\x0b' || c == '\x0c'

/-- Python str.strip(): remove leading and trailing whitespace. -/
def pyStrip (l : List Char) : List Char :=
  ((l.dropWhile isPySpace).reverse.dropWhile isPySpace).reverse

/-- Python str.strip with a quote argument: remove ALL leading and trailing
double-quote characters. -/
def pyStripQuotes (l : List Char) : List Char :=
  ((l.dropWhile (· == '"')).reverse.dropWhile (· == '"')).reverse

/-- Python str.split on a single-character separator: "".split(c) = [""],
and every separator occurrence opens a new (possibly empty) segment. -/
def pySplitChar (sep : Char) : List Char → List (List Char)
  | [] => [[]]
  | c :: rest =>
    if c == sep then [] :: pySplitChar sep rest
    else
      match pySplitChar sep rest with
      | [] => [[c]]
      | h :: t => (c :: h) :: t

/-- Python str.split on the two-character separator used for entity
references: leftmost, non-overlapping occurrences of two colons. -/
def pySplitColons : List Char → List (List Char)
  | ':' :: ':' :: rest => [] :: pySplitColons rest
  | c :: rest =>
    match pySplitColons rest with
    | [] => [[c]]
    | h :: t => (c :: h) :: t
  | [] => [[]]

/-- Python substring membership (the `in` operator on strings). -/
def pyContains (needle : List Char) : List Char → Bool
  | [] => needle.isEmpty
  | c :: rest => needle.isPrefixOf (c :: rest) || pyContains needle rest

/-- Authorization decisions produced by the full-evaluation path. -/
inductive Decision where
  | Allow
  | Deny
deriving DecidableEq, Repr

/-- The positive verdict token scanned for at line 90. -/
def allowTok : List Char := "ALLOW".toList

/-- The server's decision rule (line 90): Allow when the literal token
"ALLOW" occurs in the engine's standard output, Deny otherwise. -/
def parseDecision (stdout : List Char) : Decision :=
  if pyContains allowTok stdout then .Allow else .Deny

/-- Characters matched by the regex word class (ASCII model of backslash-w). -/
def isWordChar (c : Char) : Bool := c.isAlphanum || c == '_'

/-- Characters admitted after the policy prefix by the extraction pattern:
word characters or a hyphen. -/
def isPolicyIdChar (c : Char) : Bool := isWordChar c || c == '-'

/-- The literal part of the policy-id pattern, lowercase. -/
def policyLit : List Char := "policy-".toList

/-- Model of re.findall over one line with the policy-id pattern and the
IGNORECASE flag: scan left to right; at each position, if the next seven
characters case-insensitively spell the policy prefix and at least one
word-or-hyphen character follows, emit the greedy match (original casing
preserved) and resume after it; otherwise advance one character. -/
def findPolicyMatchesAux : Nat → List Char → List (List Char)
  | 0, _ => []
  | _, [] => []
  | fuel + 1, c :: rest =>
    if ((c :: rest).take 7).map Char.toLower = policyLit then
      let tail := (c :: rest).drop 7
      let run := tail.takeWhile isPolicyIdChar
      if run.isEmpty then findPolicyMatchesAux fuel rest
      else (((c :: rest).take 7) ++ run)
        :: findPolicyMatchesAux fuel (tail.dropWhile isPolicyIdChar)
    else findPolicyMatchesAux fuel rest

/-- The findall model at its canonical fuel (the scan consumes at least one
character of the line per step, so the line length bounds the step count). -/
def findPolicyMatches (l : List Char) : List (List Char) :=
  findPolicyMatchesAux l.length l

/-- The per-line guard at line 97 of the server: the lowercased line must
contain the policy prefix before findall is attempted. -/
def lineHasPolicyLower (line : List Char) : Bool :=
  pyContains policyLit (line.map Char.toLower)

/-- Lines 94-101: collect the policy-id matches of every line of the raw
output, in order of appearance. -/
def collectPolicyIds (stdout : List Char) : List (List Char) :=
  (pySplitChar '\n' stdout).flatMap
    (fun line => if lineHasPolicyLower line then findPolicyMatches line else [])

/-- Model of dict.fromkeys-based deduplication (line 104): keep an element
when it has not been seen before. -/
def pyDedupAux {α : Type} [DecidableEq α] (seen : List α) : List α → List α
  | [] => []
  | a :: l => if a ∈ seen then pyDedupAux seen l else a :: pyDedupAux (a :: seen) l

/-- Deduplication preserving first occurrences, as the server performs it. -/
def pyDedup {α : Type} [DecidableEq α] (l : List α) : List α := pyDedupAux [] l

/-- Lines 94-104: the policy ids reported in diagnostics. -/
def extractPolicyIds (stdout : List Char) : List (List Char) :=
  pyDedup (collectPolicyIds stdout)

/-! ## Entity reference parser (lines 141-149) -/

/-- Lines 141-149: split the reference on the double-colon separator; with
at least three segments, rejoin all but the last as the type and strip
quotes from the last to obtain the id; otherwise return the reference
itself with an empty id. -/
def parse_entity_id (full_id : List Char) : List Char × List Char :=
  let parts := pySplitColons full_id
  if 3 ≤ parts.length then
    (List.intercalate [':', ':'] parts.dropLast, pyStripQuotes (parts.getLastD []))
  else
    (full_id, [])

/-! ## Residual extractor state machine (lines 186-208) -/

/-- The loop state of the residual extractor: the in-residual flag, the
current accumulator of lines, and the flushed residual blocks. -/
structure TpeState where
  inResidual : Bool
  acc : List (List Char)
  residuals : List (List Char)
deriving DecidableEq, Repr

/-- Python newline-join of the accumulated lines into one text block. -/
def joinNL (ls : List (List Char)) : List Char := List.intercalate ['\n'] ls

/-- The residual-start marker: an identifier annotation opener. -/
def idMarker : List Char := "@id(".toList

/-- The horizontal-separator marker. -/
def sepMarker : List Char := "---".toList

/-- One iteration of the loop at lines 190-204, processing one line. -/
def tpeStep (st : TpeState) (line : List Char) : TpeState :=
  if idMarker.isPrefixOf (pyStrip line) then
    { inResidual := true,
      acc := [line],
      residuals := st.residuals ++ (if st.acc.isEmpty then [] else [joinNL st.acc]) }
  else if st.inResidual then
    if !(pyStrip line).isEmpty && !(sepMarker.isPrefixOf (pyStrip line)) then
      { st with acc := st.acc ++ [line] }
    else
      if !st.acc.isEmpty && [';'].isSuffixOf (pyStrip (st.acc.getLastD [])) then
        { inResidual := false, acc := [], residuals := st.residuals ++ [joinNL st.acc] }
      else st
  else st

/-- The loop's initial state (lines 186-188). -/
def tpeInit : TpeState := ⟨false, [], []⟩

/-- Folding the step over the newline-split engine output. -/
def tpeScan (stdout : List Char) : TpeState :=
  (pySplitChar '\n' stdout).foldl tpeStep tpeInit

/-- Lines 186-208: the extracted residual blocks, with the final
unconditional flush of a non-empty accumulator (lines 206-208). -/
def extractResiduals (stdout : List Char) : List (List Char) :=
  let st := tpeScan stdout
  st.residuals ++ (if st.acc.isEmpty then [] else [joinNL st.acc])

/-! ## Full-evaluation handler model (lines 46-131, 25-44) -/

/-- The outcome of the engine invocation at lines 65-77: the executable may
be missing (the invocation raises), or the process completes with an exit
status and captured output streams. A non-zero exit status does NOT raise:
the invocation does not request a status check. -/
structure RunResult where
  returncode : Int
  stdout : List Char
  stderr : List Char
deriving DecidableEq, Repr

inductive EngineOutcome where
  | missing
  | ran (r : RunResult)
deriving DecidableEq, Repr

structure Diagnostics where
  reason : List (List Char)
  errors : List (List Char)
deriving DecidableEq, Repr

structure AuthzResponse where
  decision : Decision
  diagnostics : Diagnostics
deriving DecidableEq, Repr

/-- The wire response of the gateway: a 200 authorization response, or the
500 internal error produced by the handler at lines 41-44. -/
inductive HttpResponse where
  | ok200 (resp : AuthzResponse)
  | err500 (msg : List Char)
deriving DecidableEq, Repr

/-- The exception message raised when the engine executable is absent. -/
def engineMissingMsg : List Char := "No such file or directory: cedar".toList

/-- Lines 107-113: the 200 response body is built from the captured
standard output alone — decision by substring test, reason by policy-id
extraction, and a literally empty error list. -/
def mkAuthzResponse (stdout : List Char) : AuthzResponse :=
  { decision := parseDecision stdout,
    diagnostics := { reason := extractPolicyIds stdout, errors := [] } }

/-- Lines 46-131: the authorize handler given the engine outcome. A missing
engine raises (modelled as the error case, re-raised at lines 129-131); a
completed run is parsed regardless of its exit status, which is never
inspected. -/
def handleAuthorize (eng : EngineOutcome) : Except (List Char) AuthzResponse :=
  match eng with
  | .missing => .error engineMissingMsg
  | .ran r => .ok (mkAuthzResponse r.stdout)

/-- Lines 25-44: the POST dispatcher turns a handler exception into an
HTTP 500 and a handler result into an HTTP 200. -/
def doPostAuthorize (eng : EngineOutcome) : HttpResponse :=
  match handleAuthorize eng with
  | .ok resp => .ok200 resp
  | .error e => .err500 e

/-- Line 59: creating the transient request artifact makes it exist. -/
def createTempArtifact (_fs : Bool) : Bool := true

/-- Line 127: unlink with missing-ok removes the artifact whatever its
state. -/
def unlinkMissingOk (_fs : Bool) : Bool := false

/-- Lines 59-127 with the filesystem state of the transient request
artifact threaded through: the artifact is created before the guarded
region, the body either succeeds or raises (engine missing, or a failure
while writing the response, lines 116-119), and the cleanup clause at
lines 126-127 runs on every exit path before the handler returns or
re-raises. Returns the handler outcome and whether the artifact still
exists afterwards. -/
def handleAuthorizeFS (eng : EngineOutcome) (writeOk : Bool) :
    Except (List Char) AuthzResponse × Bool :=
  let fsCreated := createTempArtifact false
  let body : Except (List Char) AuthzResponse :=
    match eng with
    | .missing => .error engineMissingMsg
    | .ran r =>
      if writeOk then .ok (mkAuthzResponse r.stdout)
      else .error "response write failed".toList
  let fsFinal := unlinkMissingOk fsCreated
  (body, fsFinal)

/-! ## Partial-evaluation handler model (lines 133-224) -/

/-- A query-constraints request body. The handler reads only the principal,
action and resource fields (lines 136-138); any context field of the body
is never read. -/
structure QueryRequest where
  principal : List Char
  action : List Char
  resource : List Char
  context : Option (List Char)
deriving DecidableEq, Repr

def schemaPath : List Char := "schema.cedarschema".toList
def policiesTpePath : List Char := "policies-tpe.cedar".toList
def entitiesPath : List Char := "entities.json".toList

/-- Lines 151-166: the argument vector of the partial-evaluation engine
invocation, built from the parsed principal and resource references and the
raw action string; no context argument exists. -/
def buildTpeArgs (q : QueryRequest) : List (List Char) :=
  let p := parse_entity_id q.principal
  let r := parse_entity_id q.resource
  ["cedar".toList, "tpe".toList,
   "-s".toList, schemaPath,
   "-p".toList, policiesTpePath,
   "--entities".toList, entitiesPath,
   "--principal-type".toList, p.1,
   "--principal-eid".toList, p.2,
   "-a".toList, q.action,
   "--resource-type".toList, r.1,
   "--resource-eid".toList, r.2]

structure QueryResponse where
  decision : List Char
  residuals : List (List Char)
  explanation : List Char
deriving DecidableEq, Repr

/-- Lines 211-215: the 200 response of the query-constraints path, built
from the engine standard output alone, with the decision fixed to the
UNKNOWN literal. -/
def mkQueryResponse (engineStdout : List Char) : QueryResponse :=
  { decision := "UNKNOWN".toList,
    residuals := extractResiduals engineStdout,
    explanation :=
      "These are the policy constraints that must be satisfied for authorization".toList }

/-- Lines 133-224: the query-constraints handler, given the request body
and the standard output of the engine invocation it performs. -/
def handleQueryConstraints (_q : QueryRequest) (engineStdout : List Char) : QueryResponse :=
  mkQueryResponse engineStdout

/-! ## Claim-side definitions

These definitions follow the wording of the spec's claims, to be compared
with the definitions embedded from the source. -/

/-- Claim-side (C4): deduplication preserving first occurrence — keep the
head and remove its later duplicates before continuing. -/
def keepFirsts {α : Type} [DecidableEq α] : List α → List α
  | [] => []
  | a :: l => a :: keepFirsts (l.filter (· != a))
termination_by l => l.length
decreasing_by exact Nat.lt_succ_of_le (List.length_filter_le _ _)

/-- Claim-side (C3, as stated): strip exactly one leading and exactly one
trailing literal quote character, an absent quote being a no-op. -/
def stripOneQuote (l : List Char) : List Char :=
  let l1 := match l with
    | '"' :: rest => rest
    | _ => l
  match l1.reverse with
  | '"' :: rest => rest.reverse
  | _ => l1

/-- Claim-side (C3, as amended): the entity-reference parser described by
the claim, with ALL leading and trailing quote characters stripped from the
last segment. -/
def parseEntityIdSpec (ref : List Char) : List Char × List Char :=
  let segs := pySplitColons ref
  if 3 ≤ segs.length then
    (List.intercalate [':', ':'] segs.dropLast,
     List.rdropWhile (· == '"') (List.dropWhile (· == '"') (segs.getLastD [])))
  else
    (ref, [])

/-! ## Bridging lemmas -/

/-- The Python substring test decides list-infix containment. -/
theorem pyContains_iff (needle l : List Char) :
    pyContains needle l = true ↔ needle <:+: l := by
  induction l with
  | nil =>
    simp [pyContains, List.isEmpty_iff]
  | cons c rest ih =>
    simp only [pyContains, Bool.or_eq_true, List.isPrefixOf_iff_prefix, ih,
      List.infix_cons_iff]

/-- The findall scan of a line whose lowercased text does not contain the
policy prefix produces no match, at any fuel: the per-line guard of the
server is redundant. -/
theorem findPolicyMatchesAux_eq_nil (fuel : Nat) :
    ∀ l : List Char, pyContains policyLit (l.map Char.toLower) = false →
      findPolicyMatchesAux fuel l = [] := by
  induction fuel with
  | zero => intro l _; cases l <;> rfl
  | succ fuel ih =>
    intro l h
    cases l with
    | nil => rfl
    | cons c rest =>
      simp only [List.map_cons, pyContains, Bool.or_eq_false_iff] at h
      obtain ⟨hpre, hrest⟩ := h
      simp only [findPolicyMatchesAux]
      split
      · rename_i htake
        exfalso
        have hpref : policyLit <+: (Char.toLower c :: rest.map Char.toLower) := by
          rw [← htake, List.map_take]
          exact List.take_prefix 7 (Char.toLower c :: rest.map Char.toLower)
        have hpref' : policyLit.isPrefixOf (Char.toLower c :: rest.map Char.toLower) = true :=
          List.isPrefixOf_iff_prefix.mpr hpref
        rw [hpref'] at hpre
        cases hpre
      · exact ih rest hrest

/-- The guard at line 97 never changes the collected matches. -/
theorem collectPolicyIds_eq (s : List Char) :
    collectPolicyIds s = (pySplitChar '\n' s).flatMap findPolicyMatches := by
  unfold collectPolicyIds
  congr 1
  funext line
  rcases hg : lineHasPolicyLower line with _ | _
  · rw [if_neg Bool.false_ne_true]
    exact (findPolicyMatchesAux_eq_nil _ line hg).symm
  · rw [if_pos rfl]

/-- The seen-set dedup loop agrees with first-occurrence dedup of the
not-yet-seen elements. -/
theorem pyDedupAux_eq_keepFirsts {α : Type} [DecidableEq α] :
    ∀ (l : List α) (seen : List α),
      pyDedupAux seen l = keepFirsts (l.filter (fun b => decide (b ∉ seen))) := by
  intro l
  induction l with
  | nil => intro seen; simp [pyDedupAux, keepFirsts]
  | cons a l ih =>
    intro seen
    by_cases hmem : a ∈ seen
    · rw [show pyDedupAux seen (a :: l) = pyDedupAux seen l by
        simp only [pyDedupAux, if_pos hmem]]
      rw [show (a :: l).filter (fun b => decide (b ∉ seen))
            = l.filter (fun b => decide (b ∉ seen)) by
        simp [List.filter_cons, hmem]]
      exact ih seen
    · rw [show pyDedupAux seen (a :: l) = a :: pyDedupAux (a :: seen) l by
        simp only [pyDedupAux, if_neg hmem]]
      rw [show (a :: l).filter (fun b => decide (b ∉ seen))
            = a :: l.filter (fun b => decide (b ∉ seen)) by
        simp [List.filter_cons, hmem]]
      rw [show keepFirsts (a :: l.filter (fun b => decide (b ∉ seen)))
            = a :: keepFirsts ((l.filter (fun b => decide (b ∉ seen))).filter (· != a)) by
        simp [keepFirsts]]
      rw [List.filter_filter]
      have hpt : ∀ b ∈ l, ((b != a) && decide (b ∉ seen)) = decide (b ∉ a :: seen) := by
        intro b _
        by_cases hb : b = a
        · subst hb; simp
        · by_cases hbs : b ∈ seen <;> simp [hb, hbs]
      rw [List.filter_congr hpt]
      rw [ih (a :: seen)]

/-- The server's deduplication is exactly first-occurrence deduplication. -/
theorem pyDedup_eq_keepFirsts {α : Type} [DecidableEq α] (l : List α) :
    pyDedup l = keepFirsts l := by
  unfold pyDedup
  rw [pyDedupAux_eq_keepFirsts l []]
  congr 1
  rw [show l.filter (fun b => decide (b ∉ ([] : List α))) = l.filter (fun _ => true) from
    List.filter_congr (fun b _ => by simp)]
  exact List.filter_true l

/-- Every element kept by first-occurrence dedup comes from the input. -/
theorem mem_keepFirsts {α : Type} [DecidableEq α] :
    ∀ (l : List α) (x : α), x ∈ keepFirsts l → x ∈ l := by
  intro l
  induction l using keepFirsts.induct with
  | case1 => intro x hx; simp [keepFirsts] at hx
  | case2 a l ih =>
    intro x hx
    rw [show keepFirsts (a :: l) = a :: keepFirsts (l.filter (· != a)) by simp [keepFirsts]] at hx
    rcases List.mem_cons.mp hx with hx | hx
    · rw [hx]
      exact List.mem_cons_self a l
    · exact List.mem_cons_of_mem a (List.mem_of_mem_filter (ih x hx))

/-- First-occurrence dedup is duplicate-free. -/
theorem keepFirsts_nodup {α : Type} [DecidableEq α] :
    ∀ l : List α, (keepFirsts l).Nodup := by
  intro l
  induction l using keepFirsts.induct with
  | case1 => simp [keepFirsts]
  | case2 a l ih =>
    rw [show keepFirsts (a :: l) = a :: keepFirsts (l.filter (· != a)) by simp [keepFirsts]]
    refine List.nodup_cons.mpr ⟨?_, ih⟩
    intro hmem
    have := List.of_mem_filter (mem_keepFirsts _ a hmem)
    simp at this

/-- A line whose trimmed form starts with the horizontal separator cannot
also start with the identifier-annotation marker. -/
theorem sep_not_id_marker (s : List Char) (h : sepMarker.isPrefixOf s = true) :
    idMarker.isPrefixOf s = false := by
  cases s with
  | nil => simp [sepMarker, List.isPrefixOf] at h
  | cons c t =>
    have hc : c = '-' := by
      simp [sepMarker, List.isPrefixOf] at h
      exact h.1.symm
    subst hc
    simp [idMarker, List.isPrefixOf]

/-! ## Claim theorems -/

/-- C1 as stated is false: while InResidual with an unterminated
accumulator, a non-blank non-separator line is not always appended to the
same accumulator — a line opening an identifier annotation instead flushes
the accumulator into the result and restarts a fresh accumulator. -/
theorem C1_counterexample :
    tpeStep ⟨true, ["@id(a)".toList], []⟩ "@id(b)".toList
      ≠ ⟨true, ["@id(a)".toList, "@id(b)".toList], []⟩ := by
  decide

/-- C1 amended: in the InResidual state with a non-empty accumulator,
(1) a blank or horizontal-separator line flushes the joined accumulator
into the result, clears it and returns to Outside exactly when the last
accumulated line, trimmed, ends with the statement terminator;
(2) absent the terminator, such a line leaves the state unchanged
(the machine stays InResidual with the same accumulator); and
(3) a non-blank, non-separator line that does not open an identifier
annotation is appended to the same accumulator. -/
theorem C1_amended (st : TpeState) (line : List Char)
    (hin : st.inResidual = true) (hacc : st.acc ≠ []) :
    ((pyStrip line = [] ∨ sepMarker.isPrefixOf (pyStrip line) = true) →
        ((tpeStep st line = ⟨false, [], st.residuals ++ [joinNL st.acc]⟩)
          ↔ [';'].isSuffixOf (pyStrip (st.acc.getLastD [])) = true))
    ∧ ((pyStrip line = [] ∨ sepMarker.isPrefixOf (pyStrip line) = true) →
        [';'].isSuffixOf (pyStrip (st.acc.getLastD [])) = false →
        tpeStep st line = st)
    ∧ ((pyStrip line ≠ [] ∧ sepMarker.isPrefixOf (pyStrip line) = false
          ∧ idMarker.isPrefixOf (pyStrip line) = false) →
        tpeStep st line = { st with acc := st.acc ++ [line] }) := by
  have hnot : ∀ b : Bool, b = false → ¬(b = true) := by
    intro b hb
    rw [hb]
    exact Bool.false_ne_true
  have haccE : st.acc.isEmpty = false := by
    rcases hacc' : st.acc with _ | ⟨a, l⟩
    · exact absurd hacc' hacc
    · rfl
  have hblank_main : (pyStrip line = [] ∨ sepMarker.isPrefixOf (pyStrip line) = true) →
      (idMarker.isPrefixOf (pyStrip line) = false
        ∧ (!(pyStrip line).isEmpty && !(sepMarker.isPrefixOf (pyStrip line))) = false) := by
    rintro (hb | hs)
    · rw [hb]
      exact ⟨rfl, rfl⟩
    · refine ⟨sep_not_id_marker _ hs, ?_⟩
      rw [hs]
      simp
  have hstep_stay : (pyStrip line = [] ∨ sepMarker.isPrefixOf (pyStrip line) = true) →
      [';'].isSuffixOf (pyStrip (st.acc.getLastD [])) = false →
      tpeStep st line = st := by
    intro hblank hsemi
    obtain ⟨hid, hcontent⟩ := hblank_main hblank
    have hc3 : (!st.acc.isEmpty && [';'].isSuffixOf (pyStrip (st.acc.getLastD []))) = false := by
      rw [haccE, hsemi]
      decide
    unfold tpeStep
    rw [if_neg (hnot _ hid), if_pos hin, if_neg (hnot _ hcontent), if_neg (hnot _ hc3)]
  refine ⟨?_, hstep_stay, ?_⟩
  · intro hblank
    obtain ⟨hid, hcontent⟩ := hblank_main hblank
    rcases hsemi : [';'].isSuffixOf (pyStrip (st.acc.getLastD [])) with _ | _
    · rw [hstep_stay hblank hsemi]
      refine iff_of_false ?_ Bool.false_ne_true
      intro hEq
      have hfalse := congrArg TpeState.inResidual hEq
      rw [hin] at hfalse
      exact Bool.false_ne_true hfalse.symm
    · have hc3 : (!st.acc.isEmpty && [';'].isSuffixOf (pyStrip (st.acc.getLastD []))) = true := by
        rw [haccE, hsemi]
        decide
      have hstep : tpeStep st line = ⟨false, [], st.residuals ++ [joinNL st.acc]⟩ := by
        unfold tpeStep
        rw [if_neg (hnot _ hid), if_pos hin, if_neg (hnot _ hcontent), if_pos hc3]
      rw [hstep]
      exact iff_of_true rfl rfl
  · rintro ⟨hnb, hns, hni⟩
    have hE : (pyStrip line).isEmpty = false := by
      rcases hb' : pyStrip line with _ | ⟨a, l⟩
      · exact absurd hb' hnb
      · rfl
    have hcontent2 : (!(pyStrip line).isEmpty && !(sepMarker.isPrefixOf (pyStrip line))) = true := by
      rw [hE, hns]
      decide
    unfold tpeStep
    rw [if_neg (hnot _ hni), if_pos hin, if_pos hcontent2]

/-- Witness for C1 (flush on a separator line with a terminated
accumulator). -/
theorem C1_amended_witness :
    tpeStep ⟨true, ["@id(p)".toList, "permit();".toList], []⟩ "---".toList
      = ⟨false, [], [] ++ [joinNL ["@id(p)".toList, "permit();".toList]]⟩ :=
  ((C1_amended ⟨true, ["@id(p)".toList, "permit();".toList], []⟩ "---".toList rfl
      (by decide)).1 (Or.inr (by decide))).mpr (by decide)

/-- C2: for every raw engine output, parseDecision yields Allow exactly
when the case-sensitive token "ALLOW" occurs as a substring, and yields
Deny exactly otherwise — fail-closed, and total, so no error outcome
exists. -/
theorem C2_parseDecision_allow_iff (s : List Char) :
    (parseDecision s = Decision.Allow ↔ "ALLOW".toList <:+: s)
    ∧ (parseDecision s = Decision.Deny ↔ ¬ "ALLOW".toList <:+: s) := by
  have h1 : parseDecision s = Decision.Allow ↔ pyContains allowTok s = true := by
    unfold parseDecision
    rcases h : pyContains allowTok s with _ | _ <;> simp [h]
  have h2 : parseDecision s = Decision.Deny ↔ pyContains allowTok s = false := by
    unfold parseDecision
    rcases h : pyContains allowTok s with _ | _ <;> simp [h]
  have h3 : pyContains allowTok s = true ↔ "ALLOW".toList <:+: s := pyContains_iff _ _
  refine ⟨h1.trans h3, h2.trans ?_⟩
  constructor
  · intro hf hi
    rw [h3.mpr hi] at hf
    cases hf
  · intro hn
    rcases hb : pyContains allowTok s with _ | _
    · rfl
    · exact absurd (h3.mp hb) hn

/-- C3 as stated is false: the parser strips ALL leading and trailing quote
characters from the last segment, not exactly one of each, so on a last
segment carrying doubled quotes the parser's id differs from the id the
claim describes. -/
theorem C3_counterexample :
    parse_entity_id "A::B::\"\"x\"\"".toList
      ≠ (List.intercalate [':', ':'] ((pySplitColons "A::B::\"\"x\"\"".toList).dropLast),
         stripOneQuote ((pySplitColons "A::B::\"\"x\"\"".toList).getLastD [])) := by
  decide

/-- C3 amended: the entity-reference parser is total and deterministic;
with at least three double-colon segments it returns the join of all but
the last segment and the last segment with all leading and trailing quote
characters stripped (absent quotes a no-op); with fewer segments it
returns the original string and an empty id. -/
theorem C3_amended (ref : List Char) : parse_entity_id ref = parseEntityIdSpec ref := by
  unfold parse_entity_id parseEntityIdSpec pyStripQuotes
  simp [List.rdropWhile]

/-- C4: policy-id extraction equals first-occurrence deduplication of the
line-by-line pattern matches collected in order of appearance (keepFirsts
keeps each id exactly once, at its first occurrence, and removes its later
duplicates — so an id repeated across lines yields one entry); the result
is moreover duplicate-free. The per-line lowercase guard of the server is
proven redundant along the way. -/
theorem C4_extract_first_occurrences (s : List Char) :
    extractPolicyIds s = keepFirsts ((pySplitChar '\n' s).flatMap findPolicyMatches)
    ∧ (extractPolicyIds s).Nodup := by
  have h1 : extractPolicyIds s
      = keepFirsts ((pySplitChar '\n' s).flatMap findPolicyMatches) := by
    unfold extractPolicyIds
    rw [collectPolicyIds_eq, pyDedup_eq_keepFirsts]
  refine ⟨h1, ?_⟩
  rw [h1]
  exact keepFirsts_nodup _

/-- C5: whenever the scan over a partial-evaluation output stream ends with
a non-empty accumulator, the extractor flushes it unconditionally — the
joined block is the final element of the result, with no condition on the
statement terminator. -/
theorem C5_final_flush_unconditional (s : List Char) (h : (tpeScan s).acc ≠ []) :
    extractResiduals s = (tpeScan s).residuals ++ [joinNL (tpeScan s).acc] := by
  unfold extractResiduals
  simp [List.isEmpty_iff, h]

/-- Witness for C5 on a stream truncated mid-block with no trailing
terminator. -/
theorem C5_witness :
    extractResiduals "@id(p)\npermit(".toList
      = (tpeScan "@id(p)\npermit(".toList).residuals
        ++ [joinNL (tpeScan "@id(p)\npermit(".toList).acc] :=
  C5_final_flush_unconditional _ (by decide)

/-- C6 as stated is false: an engine run completing with a non-zero exit
status is not surfaced as an internal error — the handler never inspects
the exit status and answers 200 with the decision parsed from the captured
output (here the fail-closed Deny at exit status 2). -/
theorem C6_counterexample :
    doPostAuthorize (.ran ⟨2, "Decision: DENY".toList, []⟩)
      = HttpResponse.ok200 ⟨Decision.Deny, ⟨[], []⟩⟩ := by
  decide

/-- C6 amended: only the engine-missing condition (the invocation raising)
is propagated to the gateway as an internal error; a completed run is
always answered 200 with the response parsed from its standard output,
whatever its exit status. -/
theorem C6_amended (r : RunResult) :
    doPostAuthorize EngineOutcome.missing = HttpResponse.err500 engineMissingMsg
    ∧ doPostAuthorize (.ran r) = HttpResponse.ok200 (mkAuthzResponse r.stdout) :=
  ⟨rfl, rfl⟩

/-- C7: the constraint-query path neither accepts nor forwards context: two
request bodies agreeing on principal, action and resource — whatever their
context fields — yield identical engine argument vectors and identical
responses for the same engine output. -/
theorem C7_context_never_forwarded (q1 q2 : QueryRequest)
    (hp : q1.principal = q2.principal) (ha : q1.action = q2.action)
    (hr : q1.resource = q2.resource) :
    buildTpeArgs q1 = buildTpeArgs q2
    ∧ ∀ out : List Char, handleQueryConstraints q1 out = handleQueryConstraints q2 out := by
  constructor
  · simp only [buildTpeArgs, hp, ha, hr]
  · intro out
    rfl

/-- Witness for C7: a body without context and one carrying a context value
produce the same argument vector and the same response. -/
theorem C7_witness :
    buildTpeArgs
        ⟨"OpenClaw::Agent::\"main\"".toList, "OpenClaw::Action::\"ToolExec::Write\"".toList,
         "OpenClaw::Tool::\"write\"".toList, none⟩
      = buildTpeArgs
          ⟨"OpenClaw::Agent::\"main\"".toList, "OpenClaw::Action::\"ToolExec::Write\"".toList,
           "OpenClaw::Tool::\"write\"".toList, some "filePath=/tmp/x".toList⟩
    ∧ handleQueryConstraints
        ⟨"OpenClaw::Agent::\"main\"".toList, "OpenClaw::Action::\"ToolExec::Write\"".toList,
         "OpenClaw::Tool::\"write\"".toList, none⟩ "UNKNOWN".toList
      = handleQueryConstraints
          ⟨"OpenClaw::Agent::\"main\"".toList, "OpenClaw::Action::\"ToolExec::Write\"".toList,
           "OpenClaw::Tool::\"write\"".toList, some "filePath=/tmp/x".toList⟩ "UNKNOWN".toList :=
  ⟨(C7_context_never_forwarded _ _ rfl rfl rfl).1,
   (C7_context_never_forwarded _ _ rfl rfl rfl).2 "UNKNOWN".toList⟩

/-- C8: every successful query-constraints response carries the decision
UNKNOWN — never Allow, never Deny — for every request and engine output,
residual-bearing outputs included. -/
theorem C8_query_decision_unknown (q : QueryRequest) (out : List Char) :
    (handleQueryConstraints q out).decision = "UNKNOWN".toList
    ∧ (handleQueryConstraints q out).decision ≠ "Allow".toList
    ∧ (handleQueryConstraints q out).decision ≠ "Deny".toList :=
  ⟨rfl,
   fun h => absurd h (show ¬("UNKNOWN".toList = "Allow".toList) by decide),
   fun h => absurd h (show ¬("UNKNOWN".toList = "Deny".toList) by decide)⟩

/-- C9: the transient request artifact is removed on every exit path of the
authorize handler — engine success, engine missing, and response-write
failure alike — so no artifact survives a completed handler call. -/
theorem C9_artifact_removed (eng : EngineOutcome) (writeOk : Bool) :
    (handleAuthorizeFS eng writeOk).2 = false := rfl

/-- C10: a 200 authorize response never surfaces engine standard error: its
error list is literally empty, and the response is a function of the
captured standard output alone — equal stdout gives equal responses
whatever the stderr text and exit status. -/
theorem C10_errors_empty_stderr_ignored (r r' : RunResult) (h : r.stdout = r'.stdout) :
    (mkAuthzResponse r.stdout).diagnostics.errors = []
    ∧ handleAuthorize (.ran r) = handleAuthorize (.ran r') := by
  refine ⟨rfl, ?_⟩
  simp [handleAuthorize, h]

/-- Witness for C10: two runs with the same stdout but different stderr and
exit status give the same response, with an empty error list. -/
theorem C10_witness :
    (mkAuthzResponse (RunResult.mk 0 "ALLOW".toList []).stdout).diagnostics.errors = []
    ∧ handleAuthorize (.ran ⟨0, "ALLOW".toList, []⟩)
      = handleAuthorize (.ran ⟨2, "ALLOW".toList, "engine warning".toList⟩) :=
  C10_errors_empty_stderr_ignored ⟨0, "ALLOW".toList, []⟩
    ⟨2, "ALLOW".toList, "engine warning".toList⟩ rfl

end CedarPDP


